import Mathlib

/-!
A verification development for the ByteDog system monitor core
(`bytedog.py`): the process-table cache (`SystemMonitor.get_process_list`),
the process-control operations (`ProcessManager.kill_process`,
`suspend_process`, `resume_process`), the view-mode cycle
(`ByteDogApp.cycle_view_mode`), and the background sampling loop
(`ByteDogApp.start_monitoring`) with its `queue.Queue()` handoff queue.

The Python code is shallowly embedded: OS behaviour (psutil calls, the
process table, exceptions raised by the OS) is passed in as explicit data,
timestamps (`time.time()`) are explicit rational parameters, and mutation
of `self` is explicit state passing.
-/

namespace ByteDog

/-- The psutil exception taxonomy that the code catches:
`psutil.NoSuchProcess` and `psutil.AccessDenied`. -/
inductive PsErr where
  | noSuchProcess
  | accessDenied
deriving DecidableEq, Repr

/-- One entry produced by `psutil.process_iter(['pid', 'name',
'memory_percent', 'status'])`: the `proc.info` dict. `memory_percent` may be
`None` (hence `Option`), which the sort key guards with `or 0`. -/
structure PInfo where
  pid : Nat
  name : String
  memory_percent : Option ℚ
  status : String
deriving DecidableEq, Repr

/-- A process record as returned by `get_process_list`: the `pinfo` dict
after the code adds `pinfo['cpu_percent'] = 0.0`. -/
structure ProcessRecord where
  pid : Nat
  name : String
  memory_percent : Option ℚ
  status : String
  cpu_percent : ℚ
deriving DecidableEq, Repr

/-- The sort key `lambda x: x['memory_percent'] or 0` (Python `or 0` maps
`None` to `0`; on the number `0.0` it is the identity value `0`). -/
def keyd (r : ProcessRecord) : ℚ := r.memory_percent.getD 0

/-- The comparator realising `sorted(..., key=keyd, reverse=True)`:
descending by `keyd`. Python's `sorted` is a stable merge sort, so the
embedding uses `List.mergeSort` with this comparator. -/
def procLE (a b : ProcessRecord) : Bool := decide (keyd b ≤ keyd a)

/-- The body of the enumeration loop in `get_process_list`: each entry of
`process_iter` either yields its `proc.info` (tagged with
`cpu_percent = 0.0`) or raises `NoSuchProcess`/`AccessDenied`, in which
case the `continue` skips it. -/
def freshRecords (table : List (Except PsErr PInfo)) : List ProcessRecord :=
  table.filterMap fun entry =>
    match entry with
    | .ok p => some ⟨p.pid, p.name, p.memory_percent, p.status, 0⟩
    | .error _ => none

/-- The mutable fields of `SystemMonitor` that `get_process_list` touches,
plus a ghost counter `enumCount` of how many OS enumerations
(`psutil.process_iter` traversals) have been performed. -/
structure MonitorState where
  process_cache : List ProcessRecord
  last_process_update : ℚ
  enumCount : Nat
deriving DecidableEq, Repr

/-- The `SystemMonitor.__init__` state: `process_cache = []`,
`last_process_update = 0`. -/
def SystemMonitor.init : MonitorState := ⟨[], 0, 0⟩

/-- The embedding of `SystemMonitor.get_process_list(self, use_cache=False)`.
`now` is the value of `time.time()` during the call; `table` is the OS
process table as seen by `psutil.process_iter`. Returns the list the call
returns together with the updated state. The cache test is
`use_cache and self.process_cache and (time.time() - self.last_process_update < 2)`
(a Python list is truthy iff non-empty). -/
def get_process_list (st : MonitorState) (use_cache : Bool) (now : ℚ)
    (table : List (Except PsErr PInfo)) : List ProcessRecord × MonitorState :=
  if use_cache = true ∧ st.process_cache ≠ [] ∧ now - st.last_process_update < 2 then
    (st.process_cache, st)
  else
    let sortedProcs := (freshRecords table).mergeSort procLE
    (sortedProcs, ⟨sortedProcs, now, st.enumCount + 1⟩)

/-- The cache-clearing part of `ByteDogApp.refresh_processes`:
`self.monitor.process_cache = []`. -/
def refresh_processes (st : MonitorState) : MonitorState :=
  { st with process_cache := [] }

/-- A sequence of `get_process_list` calls: each call supplies its
`use_cache` flag, its `time.time()` value, and the OS table at that
instant. Returns the list of returned snapshots and the final state. -/
def runCalls (calls : List (Bool × ℚ × List (Except PsErr PInfo)))
    (st : MonitorState) : List (List ProcessRecord) × MonitorState :=
  match calls with
  | [] => ([], st)
  | (uc, now, table) :: rest =>
    let r := get_process_list st uc now table
    let rest' := runCalls rest r.2
    (r.1 :: rest'.1, rest'.2)

/-! ### ProcessManager -/

deriving instance DecidableEq for Except

/-- The OS behaviour relevant to one `ProcessManager.kill_process(pid)`
call: whether `psutil.Process(pid)` resolves, what `proc.terminate()`
does, whether `proc.is_running()` still holds after the 0.5 s sleep, and
what `proc.kill()` does if reached. -/
structure KillWorld where
  lookup : Except PsErr Unit
  terminateCall : Except PsErr Unit
  stillRunning : Bool
  killCall : Except PsErr Unit
deriving DecidableEq, Repr

/-- Observable actions taken during `kill_process`: how long the
`time.sleep(0.5)` grace wait lasted (`0` if an exception aborted the try
block before the sleep), and whether `proc.kill()` was invoked. -/
structure KillTrace where
  graceWait : ℚ
  killInvoked : Bool
deriving DecidableEq, Repr

/-- The try block of `kill_process`: `proc = psutil.Process(pid)`;
`proc.terminate()`; `time.sleep(0.5)`; `if proc.is_running(): proc.kill()`;
`return True`. An exception anywhere aborts the rest of the block. -/
def kill_body (w : KillWorld) : Except PsErr Bool × KillTrace :=
  match w.lookup with
  | .error e => (.error e, ⟨0, false⟩)
  | .ok _ =>
    match w.terminateCall with
    | .error e => (.error e, ⟨0, false⟩)
    | .ok _ =>
      if w.stillRunning then
        match w.killCall with
        | .error e => (.error e, ⟨1/2, true⟩)
        | .ok _ => (.ok true, ⟨1/2, true⟩)
      else (.ok true, ⟨1/2, false⟩)

/-- `ProcessManager.kill_process(pid)`: the try block with its
`except (psutil.NoSuchProcess, psutil.AccessDenied): return False` clause.
An `.error` result would mean an exception escaped to the caller. -/
def kill_process (w : KillWorld) : Except PsErr Bool × KillTrace :=
  match kill_body w with
  | (.ok b, t) => (.ok b, t)
  | (.error .noSuchProcess, t) => (.ok false, t)
  | (.error .accessDenied, t) => (.ok false, t)

/-- The OS behaviour relevant to one `suspend_process`/`resume_process`
call: whether `psutil.Process(pid)` resolves and what the single
`proc.suspend()`/`proc.resume()` call does. -/
structure OpWorld where
  lookup : Except PsErr Unit
  opCall : Except PsErr Unit
deriving DecidableEq, Repr

/-- The try block of `suspend_process`: `proc = psutil.Process(pid)`;
`proc.suspend()`; `return True`. -/
def suspend_body (w : OpWorld) : Except PsErr Bool :=
  match w.lookup with
  | .error e => .error e
  | .ok _ =>
    match w.opCall with
    | .error e => .error e
    | .ok _ => .ok true

/-- `ProcessManager.suspend_process(pid)` with its except clause. -/
def suspend_process (w : OpWorld) : Except PsErr Bool :=
  match suspend_body w with
  | .ok b => .ok b
  | .error .noSuchProcess => .ok false
  | .error .accessDenied => .ok false

/-- The try block of `resume_process`: `proc = psutil.Process(pid)`;
`proc.resume()`; `return True`. -/
def resume_body (w : OpWorld) : Except PsErr Bool :=
  match w.lookup with
  | .error e => .error e
  | .ok _ =>
    match w.opCall with
    | .error e => .error e
    | .ok _ => .ok true

/-- `ProcessManager.resume_process(pid)` with its except clause. -/
def resume_process (w : OpWorld) : Except PsErr Bool :=
  match resume_body w with
  | .ok b => .ok b
  | .error .noSuchProcess => .ok false
  | .error .accessDenied => .ok false

/-! ### View modes -/

/-- `ByteDogApp.cycle_view_mode`: the `view_mode` StringVar is set to
"compact" from "minimal", to "detailed" from "compact", and to "minimal"
otherwise. -/
def cycle_view_mode (mode : String) : String :=
  if mode = "minimal" then "compact"
  else if mode = "compact" then "detailed"
  else "minimal"

/-! ### Sampler loop and handoff queue -/

/-- The memory dict built by `SystemMonitor.get_memory_info` from
`psutil.virtual_memory()` and `psutil.swap_memory()`. -/
structure MemInfo where
  percent : ℚ
  used : Nat
  available : Nat
  total : Nat
  swap_percent : ℚ
  swap_used : Nat
  swap_total : Nat
deriving DecidableEq, Repr

/-- The GPU dict built by `SystemMonitor.get_gpu_info` when a GPU is
available. -/
structure GpuInfo where
  name : String
  load : ℚ
  memory_used : ℚ
  memory_total : ℚ
  memory_percent : ℚ
  temperature : ℚ
deriving DecidableEq, Repr

/-- One bundle gathered by a tick of `monitor_loop`: the `data` dict with
keys `cpu`, `memory`, `processes`, and optionally `gpu`. -/
structure SampleData where
  cpu : ℚ
  memory : MemInfo
  processes : List ProcessRecord
  gpu : Option GpuInfo
deriving DecidableEq, Repr

/-- A generic Python exception caught by `except Exception as e` in the
monitor loop. -/
inductive TickErr where
  | exn (msg : String)
deriving DecidableEq, Repr

/-- Python's `queue.Queue(maxsize)`: `maxsize = 0` (the default used by
`ByteDogApp.__init__` for `self.data_queue`) means unbounded. -/
structure PyQueue (α : Type) where
  maxsize : Nat
  items : List α
deriving Repr

/-- Python's blocking `Queue.put(item)`: it blocks while
`0 < maxsize ≤ qsize()`; `none` models the caller blocking forever when no
consumer ever drains the queue, `some` is the completed put. -/
def PyQueue.put {α : Type} (q : PyQueue α) (x : α) : Option (PyQueue α) :=
  if 0 < q.maxsize ∧ q.maxsize ≤ q.items.length then none
  else some { q with items := q.items ++ [x] }

/-- `self.data_queue = queue.Queue()`: an unbounded queue, initially empty. -/
def data_queue_init (α : Type) : PyQueue α := ⟨0, []⟩

/-- One tick of `monitor_loop` in `ByteDogApp.start_monitoring`: the try
block gathers a data bundle and puts it on `self.data_queue`; any
exception during gathering reaches the `except Exception` clause, which
prints and falls through to the sleep, so nothing is enqueued that tick.
The gather outcome is passed in as data. -/
def monitor_tick (gather : Except TickErr SampleData)
    (q : PyQueue SampleData) : Option (PyQueue SampleData) :=
  match gather with
  | .ok data => q.put data
  | .error _ => some q

/-- The `while True` monitor loop run for finitely many ticks, given each
tick's gather outcome; `none` means some tick's `put` blocked and the loop
is stuck waiting on the queue. -/
def monitor_loop (gathers : List (Except TickErr SampleData))
    (q : PyQueue SampleData) : Option (PyQueue SampleData) :=
  match gathers with
  | [] => some q
  | g :: gs =>
    match monitor_tick g q with
    | none => none
    | some q' => monitor_loop gs q'

/-- The ticks whose gather succeeded (those that enqueue a bundle). -/
def gatherOk (g : Except TickErr SampleData) : Bool :=
  match g with
  | .ok _ => true
  | .error _ => false

/-- The bundle enqueued by a tick, if its gather succeeded. -/
def okData (g : Except TickErr SampleData) : Option SampleData :=
  match g with
  | .ok d => some d
  | .error _ => none

/-! ### Helper lemmas -/

lemma monitor_loop_maxzero (gathers : List (Except TickErr SampleData))
    (backlog : List SampleData) :
    monitor_loop gathers ⟨0, backlog⟩ =
      some ⟨0, backlog ++ gathers.filterMap okData⟩ := by
  induction gathers generalizing backlog with
  | nil => simp [monitor_loop]
  | cons g gs ih =>
    cases g with
    | ok d =>
      simp only [monitor_loop, monitor_tick, PyQueue.put, okData,
        List.filterMap_cons]
      rw [if_neg (by simp)]
      exact (ih (backlog ++ [d])).trans (by simp)
    | error e =>
      simp only [monitor_loop, monitor_tick, okData, List.filterMap_cons]
      exact ih backlog

lemma filterMap_okData_length (gathers : List (Except TickErr SampleData))
    (h : ∀ g ∈ gathers, gatherOk g = true) :
    (gathers.filterMap okData).length = gathers.length := by
  induction gathers with
  | nil => simp
  | cons g gs ih =>
    cases g with
    | ok d =>
      simp only [okData, List.filterMap_cons, List.length_cons]
      rw [ih fun g hg => h g (List.mem_cons_of_mem _ hg)]
    | error e =>
      exact absurd (h _ (List.mem_cons_self _ _)) (by simp [gatherOk])

lemma kill_process_ok (w : KillWorld) :
    ∃ b t, kill_process w = (.ok b, t) := by
  rcases w with ⟨l, t, s, k⟩
  rcases l with e | u
  · cases e <;> exact ⟨false, ⟨0, false⟩, rfl⟩
  · cases u
    rcases t with e | u
    · cases e <;> exact ⟨false, ⟨0, false⟩, rfl⟩
    · cases u
      cases s
      · exact ⟨true, ⟨1/2, false⟩, rfl⟩
      · rcases k with e | u
        · cases e <;> exact ⟨false, ⟨1/2, true⟩, rfl⟩
        · cases u
          exact ⟨true, ⟨1/2, true⟩, rfl⟩

lemma suspend_process_ok (w : OpWorld) : ∃ b, suspend_process w = .ok b := by
  rcases w with ⟨l, o⟩
  rcases l with e | u
  · cases e <;> exact ⟨false, rfl⟩
  · cases u
    rcases o with e | u
    · cases e <;> exact ⟨false, rfl⟩
    · cases u
      exact ⟨true, rfl⟩

lemma resume_process_ok (w : OpWorld) : ∃ b, resume_process w = .ok b := by
  rcases w with ⟨l, o⟩
  rcases l with e | u
  · cases e <;> exact ⟨false, rfl⟩
  · cases u
    rcases o with e | u
    · cases e <;> exact ⟨false, rfl⟩
    · cases u
      exact ⟨true, rfl⟩

lemma kill_process_lookup_error (w : KillWorld) (e : PsErr)
    (h : w.lookup = .error e) : (kill_process w).1 = .ok false := by
  rcases w with ⟨l, t, s, k⟩
  cases h
  cases e <;> rfl

lemma kill_process_terminate_error (w : KillWorld) (e : PsErr)
    (h : w.terminateCall = .error e) : (kill_process w).1 = .ok false := by
  rcases w with ⟨l, t, s, k⟩
  cases h
  rcases l with e' | u
  · cases e' <;> rfl
  · cases u
    cases e <;> rfl

lemma suspend_process_error (w : OpWorld) (e : PsErr)
    (h : w.lookup = .error e ∨ w.opCall = .error e) :
    suspend_process w = .ok false := by
  rcases w with ⟨l, o⟩
  rcases h with h | h
  · cases h
    cases e <;> rfl
  · cases h
    rcases l with e' | u
    · cases e' <;> rfl
    · cases u
      cases e <;> rfl

lemma resume_process_error (w : OpWorld) (e : PsErr)
    (h : w.lookup = .error e ∨ w.opCall = .error e) :
    resume_process w = .ok false := by
  rcases w with ⟨l, o⟩
  rcases h with h | h
  · cases h
    cases e <;> rfl
  · cases h
    rcases l with e' | u
    · cases e' <;> rfl
    · cases u
      cases e <;> rfl

/-! ### Claim theorems -/

/-- C5: `cycle_view_mode` advances minimal to compact, compact to detailed,
and detailed back to minimal; hence three applications of the cycle from
any of the three modes return to the starting mode. -/
theorem view_cycle_spec (m : String) :
    cycle_view_mode "minimal" = "compact" ∧
    cycle_view_mode "compact" = "detailed" ∧
    cycle_view_mode "detailed" = "minimal" ∧
    ((m = "minimal" ∨ m = "compact" ∨ m = "detailed") →
      cycle_view_mode (cycle_view_mode (cycle_view_mode m)) = m) := by
  refine ⟨by simp [cycle_view_mode], by simp [cycle_view_mode],
    by simp [cycle_view_mode], ?_⟩
  rintro (rfl | rfl | rfl) <;> simp [cycle_view_mode]

/-- Witness for C5: cycling three times from "detailed" lands back on
"detailed". -/
theorem view_cycle_witness :
    cycle_view_mode (cycle_view_mode (cycle_view_mode "detailed")) =
      "detailed" :=
  (view_cycle_spec "detailed").2.2.2 (Or.inr (Or.inr rfl))

/-- C9: an exception while gathering data during one tick is absorbed in
that tick: no bundle is enqueued (the queue is returned unchanged) and the
loop carries on with the remaining ticks exactly as if that tick were
removed; the loop never terminates because of the error. -/
theorem sampler_error_absorbed_spec (e : TickErr)
    (gathers : List (Except TickErr SampleData)) (q : PyQueue SampleData) :
    monitor_tick (.error e) q = some q ∧
    monitor_loop (.error e :: gathers) q = monitor_loop gathers q := by
  exact ⟨rfl, rfl⟩

/-- C8: an entry of the OS process table that raises
`NoSuchProcess`/`AccessDenied` mid-enumeration is silently skipped: the
fresh capture is exactly the capture of the table without that entry, and
the rest of the enumeration completes normally. -/
theorem enumeration_skip_spec (st : MonitorState) (now : ℚ)
    (pre post : List (Except PsErr PInfo)) (e : PsErr) :
    freshRecords (pre ++ .error e :: post) = freshRecords (pre ++ post) ∧
    get_process_list st false now (pre ++ .error e :: post) =
      get_process_list st false now (pre ++ post) := by
  have h1 : freshRecords (pre ++ .error e :: post) = freshRecords (pre ++ post) := by
    simp [freshRecords, List.filterMap_append, List.filterMap_cons]
  refine ⟨h1, ?_⟩
  simp [get_process_list, h1]

/-- C3: `kill_process` on a live process whose graceful `terminate()` is
accepted always waits the fixed 0.5 s grace period, invokes `kill()` iff
the process is still running after the grace period, and in particular
when the process exits within the grace period it returns success without
invoking the force-kill path. -/
theorem terminate_grace_spec (w : KillWorld) :
    (w.lookup = .ok () → w.terminateCall = .ok () →
      (kill_process w).2.graceWait = 1/2 ∧
      ((kill_process w).2.killInvoked = true ↔ w.stillRunning = true)) ∧
    (w.lookup = .ok () → w.terminateCall = .ok () → w.stillRunning = false →
      kill_process w = (.ok true, ⟨1/2, false⟩)) := by
  rcases w with ⟨l, t, s, k⟩
  constructor
  · intro hl ht
    cases hl
    cases ht
    cases s
    · exact ⟨rfl, by simp [kill_process, kill_body]⟩
    · rcases k with e | u
      · cases e <;> exact ⟨rfl, by simp [kill_process, kill_body]⟩
      · cases u
        exact ⟨rfl, by simp [kill_process, kill_body]⟩
  · intro hl ht hs
    cases hl
    cases ht
    cases hs
    rfl

/-- Witness for C3: a process that exits on the graceful signal within the
grace period yields success with the kill path not invoked and the full
0.5 s grace wait. -/
theorem terminate_grace_witness :
    kill_process ⟨.ok (), .ok (), false, .ok ()⟩ =
      (.ok true, ⟨1/2, false⟩) :=
  (terminate_grace_spec ⟨.ok (), .ok (), false, .ok ()⟩).2 rfl rfl rfl

/-- C4: each of `kill_process`, `suspend_process`, `resume_process`
resolves to an `.ok` boolean on every world (no psutil exception escapes
to the caller), and on `NoSuchProcess`/`AccessDenied` from any of the OS
calls the result is `false` rather than a raised exception; in particular
`kill_process` on a nonexistent pid returns `false`. -/
theorem control_no_raise_spec (kw : KillWorld) (sw rw : OpWorld) :
    (∃ b t, kill_process kw = (.ok b, t)) ∧
    (∃ b, suspend_process sw = .ok b) ∧
    (∃ b, resume_process rw = .ok b) ∧
    (∀ e, kw.lookup = .error e → (kill_process kw).1 = .ok false) ∧
    (∀ e, kw.terminateCall = .error e → (kill_process kw).1 = .ok false) ∧
    (∀ e, sw.lookup = .error e ∨ sw.opCall = .error e →
      suspend_process sw = .ok false) ∧
    (∀ e, rw.lookup = .error e ∨ rw.opCall = .error e →
      resume_process rw = .ok false) :=
  ⟨kill_process_ok kw, suspend_process_ok sw, resume_process_ok rw,
    fun e h => kill_process_lookup_error kw e h,
    fun e h => kill_process_terminate_error kw e h,
    fun e h => suspend_process_error sw e h,
    fun e h => resume_process_error rw e h⟩

/-- Witness for C4: a `kill_process` call whose pid lookup raises
`NoSuchProcess` returns `false`, and a `suspend_process` call whose
`proc.suspend()` raises `AccessDenied` returns `false`. -/
theorem control_no_raise_witness :
    (kill_process ⟨.error .noSuchProcess, .ok (), false, .ok ()⟩).1 =
      .ok false ∧
    suspend_process ⟨.ok (), .error .accessDenied⟩ = .ok false :=
  ⟨(control_no_raise_spec ⟨.error .noSuchProcess, .ok (), false, .ok ()⟩
      ⟨.ok (), .ok ()⟩ ⟨.ok (), .ok ()⟩).2.2.2.1 .noSuchProcess rfl,
    (control_no_raise_spec ⟨.error .noSuchProcess, .ok (), false, .ok ()⟩
      ⟨.ok (), .error .accessDenied⟩ ⟨.ok (), .ok ()⟩).2.2.2.2.2.1
      .accessDenied (Or.inr rfl)⟩

/-- C2: with the app's `queue.Queue()` (unbounded, `maxsize = 0`), the
monitor loop completes every tick even though no consumer ever drains the
queue: no `put` blocks, and when every gather succeeds the queue simply
accumulates one bundle per tick. -/
theorem sampler_nonblocking_spec
    (gathers : List (Except TickErr SampleData)) (backlog : List SampleData) :
    (∀ x : SampleData,
      (PyQueue.mk 0 backlog).put x = some ⟨0, backlog ++ [x]⟩) ∧
    (∃ q' : PyQueue SampleData,
      monitor_loop gathers ⟨0, backlog⟩ = some q' ∧ q'.maxsize = 0) ∧
    ((∀ g ∈ gathers, gatherOk g = true) →
      monitor_loop gathers ⟨0, backlog⟩ =
        some ⟨0, backlog ++ gathers.filterMap okData⟩ ∧
      (backlog ++ gathers.filterMap okData).length =
        backlog.length + gathers.length) := by
  refine ⟨fun x => by simp [PyQueue.put], ?_, ?_⟩
  · exact ⟨⟨0, backlog ++ gathers.filterMap okData⟩,
      monitor_loop_maxzero gathers backlog, rfl⟩
  · intro h
    refine ⟨monitor_loop_maxzero gathers backlog, ?_⟩
    rw [List.length_append, filterMap_okData_length gathers h]

/-- Witness for C2: three ticks with successful gathers and an absent
consumer all complete, leaving three bundles in the queue. -/
theorem sampler_nonblocking_witness :
    monitor_loop
      [.ok ⟨0, ⟨0, 0, 0, 0, 0, 0, 0⟩, [], none⟩,
        .ok ⟨1, ⟨0, 0, 0, 0, 0, 0, 0⟩, [], none⟩,
        .ok ⟨2, ⟨0, 0, 0, 0, 0, 0, 0⟩, [], none⟩] ⟨0, []⟩ =
      some ⟨0, [⟨0, ⟨0, 0, 0, 0, 0, 0, 0⟩, [], none⟩,
        ⟨1, ⟨0, 0, 0, 0, 0, 0, 0⟩, [], none⟩,
        ⟨2, ⟨0, 0, 0, 0, 0, 0, 0⟩, [], none⟩]⟩ :=
  ((sampler_nonblocking_spec
    [.ok ⟨0, ⟨0, 0, 0, 0, 0, 0, 0⟩, [], none⟩,
      .ok ⟨1, ⟨0, 0, 0, 0, 0, 0, 0⟩, [], none⟩,
      .ok ⟨2, ⟨0, 0, 0, 0, 0, 0, 0⟩, [], none⟩] []).2.2
    (by intro g hg; fin_cases hg <;> rfl)).1

/-- C1: with a non-empty cached snapshot whose age is strictly below the
2-second TTL, `get_process_list(use_cache=True)` returns that exact
snapshot with the state (including the ghost enumeration counter)
unchanged; once the age is at least the TTL, the call enumerates afresh,
stores the new snapshot under a strictly greater timestamp, and returns
it. -/
theorem cache_ttl_spec (st : MonitorState) (now : ℚ)
    (table : List (Except PsErr PInfo)) :
    (st.process_cache ≠ [] → now - st.last_process_update < 2 →
      get_process_list st true now table = (st.process_cache, st)) ∧
    (2 ≤ now - st.last_process_update →
      get_process_list st true now table =
        ((freshRecords table).mergeSort procLE,
          ⟨(freshRecords table).mergeSort procLE, now, st.enumCount + 1⟩) ∧
      st.last_process_update < now) := by
  constructor
  · intro h1 h2
    simp [get_process_list, h1, h2]
  · intro h
    have hlt : ¬ now - st.last_process_update < 2 := not_lt.mpr h
    refine ⟨by simp [get_process_list, hlt], by linarith⟩

/-- Witness for C1: a call 1 s after the capture returns the cached
snapshot untouched; a call 2 s after the capture re-enumerates (empty OS
table here), stores timestamp 2 > 0, and bumps the enumeration counter. -/
theorem cache_ttl_witness :
    get_process_list ⟨[⟨1, "a", some 5, "running", 0⟩], 0, 1⟩ true 1 [] =
      ([⟨1, "a", some 5, "running", 0⟩],
        ⟨[⟨1, "a", some 5, "running", 0⟩], 0, 1⟩) ∧
    get_process_list ⟨[⟨1, "a", some 5, "running", 0⟩], 0, 1⟩ true 2 [] =
      ([], ⟨[], 2, 2⟩) ∧
    (0 : ℚ) < 2 := by
  have h2 := (cache_ttl_spec ⟨[⟨1, "a", some 5, "running", 0⟩], 0, 1⟩ 2 []).2
    (by norm_num)
  refine ⟨(cache_ttl_spec ⟨[⟨1, "a", some 5, "running", 0⟩], 0, 1⟩ 1 []).1
    (by simp) (by norm_num), ?_, h2.2⟩
  simpa [freshRecords, List.mergeSort_nil] using h2.1

/-- C10: when the stored snapshot is empty — as in the initial
`SystemMonitor` state and after `refresh_processes` clears it — a
`get_process_list(use_cache=True)` call performs a fresh OS enumeration
regardless of how recent `last_process_update` is. -/
theorem empty_cache_fresh_spec (st : MonitorState) (now : ℚ)
    (table : List (Except PsErr PInfo)) :
    (st.process_cache = [] →
      get_process_list st true now table =
        ((freshRecords table).mergeSort procLE,
          ⟨(freshRecords table).mergeSort procLE, now, st.enumCount + 1⟩)) ∧
    (refresh_processes st).process_cache = [] ∧
    SystemMonitor.init.process_cache = [] := by
  refine ⟨fun h => by simp [get_process_list, h], rfl, rfl⟩

/-- Witness for C10: in the initial state the timestamp is as recent as
possible (`now = last_process_update = 0`, age 0 < TTL) yet a cached read
still enumerates afresh. -/
theorem empty_cache_fresh_witness :
    get_process_list SystemMonitor.init true 0
        [.ok ⟨7, "x", some 1, "running"⟩] =
      ([⟨7, "x", some 1, "running", 0⟩],
        ⟨[⟨7, "x", some 1, "running", 0⟩], 0, 1⟩) := by
  have h := (empty_cache_fresh_spec SystemMonitor.init 0
    [.ok ⟨7, "x", some 1, "running"⟩]).1 rfl
  simpa [freshRecords, SystemMonitor.init, List.mergeSort_singleton] using h

lemma freshRecords_cpu_zero (table : List (Except PsErr PInfo)) :
    ∀ r ∈ freshRecords table, r.cpu_percent = 0 := by
  intro r hr
  rw [freshRecords, List.mem_filterMap] at hr
  obtain ⟨entry, -, h⟩ := hr
  cases entry with
  | ok p =>
    simp only [Option.some_inj] at h
    rw [← h]
  | error e => exact absurd h (by simp)

lemma get_process_list_cpu_zero (st : MonitorState) (uc : Bool) (now : ℚ)
    (table : List (Except PsErr PInfo))
    (hst : ∀ r ∈ st.process_cache, r.cpu_percent = 0) :
    (∀ r ∈ (get_process_list st uc now table).1, r.cpu_percent = 0) ∧
    (∀ r ∈ (get_process_list st uc now table).2.process_cache,
      r.cpu_percent = 0) := by
  rw [get_process_list]
  split
  · exact ⟨hst, hst⟩
  · have hz : ∀ r ∈ (freshRecords table).mergeSort procLE,
        r.cpu_percent = 0 := by
      intro r hr
      exact freshRecords_cpu_zero table r (List.mem_mergeSort.mp hr)
    exact ⟨hz, hz⟩

lemma runCalls_cpu_zero (calls : List (Bool × ℚ × List (Except PsErr PInfo)))
    (st : MonitorState)
    (hst : ∀ r ∈ st.process_cache, r.cpu_percent = 0) :
    ∀ out ∈ (runCalls calls st).1, ∀ r ∈ out, r.cpu_percent = 0 := by
  induction calls generalizing st with
  | nil => simp [runCalls]
  | cons c rest ih =>
    obtain ⟨uc, now, table⟩ := c
    intro out hout
    rw [runCalls] at hout
    rcases List.mem_cons.mp hout with rfl | hout
    · exact (get_process_list_cpu_zero st uc now table hst).1
    · exact ih (get_process_list st uc now table).2
        (get_process_list_cpu_zero st uc now table hst).2 out hout

/-- C7: along every sequence of `get_process_list` calls from the initial
`SystemMonitor` state, every record of every returned snapshot (cached or
freshly enumerated) carries `cpu_percent = 0`. -/
theorem cpu_percent_zero_spec
    (calls : List (Bool × ℚ × List (Except PsErr PInfo))) :
    ∀ out ∈ (runCalls calls SystemMonitor.init).1,
      ∀ r ∈ out, r.cpu_percent = 0 :=
  runCalls_cpu_zero calls SystemMonitor.init (by simp [SystemMonitor.init])

/-- Witness for C7: a fresh call followed by a cached call on a one-entry
table; the record of the second (cached) snapshot has `cpu_percent = 0`. -/
theorem cpu_percent_zero_witness :
    (⟨9, "p", some 4, "sleeping", 0⟩ : ProcessRecord).cpu_percent = 0 := by
  have hlist : (runCalls [(false, 0, [.ok ⟨9, "p", some 4, "sleeping"⟩]),
      (true, 1, [])] SystemMonitor.init).1 =
      [[⟨9, "p", some 4, "sleeping", 0⟩], [⟨9, "p", some 4, "sleeping", 0⟩]] := by
    simp [runCalls, get_process_list, SystemMonitor.init, freshRecords,
      List.mergeSort_singleton]
  refine cpu_percent_zero_spec [(false, 0, [.ok ⟨9, "p", some 4, "sleeping"⟩]),
      (true, 1, [])] [⟨9, "p", some 4, "sleeping", 0⟩] ?_
      ⟨9, "p", some 4, "sleeping", 0⟩ (List.mem_singleton.mpr rfl)
  rw [hlist]
  exact List.mem_cons_self _ _

/-- C6: every fresh capture (here a `use_cache=False` call) returns the
enumerated records sorted descending by the `memory_percent or 0` key, as
a permutation of the enumeration, and stably: restricting both the result
and the enumeration to any fixed key value yields identical lists, so
records with equal keys keep their enumeration order. -/
theorem sort_stable_spec (st : MonitorState) (now : ℚ)
    (table : List (Except PsErr PInfo)) :
    ((get_process_list st false now table).1.Pairwise
      fun a b => keyd b ≤ keyd a) ∧
    ((get_process_list st false now table).1.Perm (freshRecords table)) ∧
    (∀ q : ℚ, (get_process_list st false now table).1.filter
        (fun r => decide (keyd r = q)) =
      (freshRecords table).filter fun r => decide (keyd r = q)) := by
  have htrans : ∀ a b c : ProcessRecord,
      procLE a b = true → procLE b c = true → procLE a c = true := by
    intro a b c hab hbc
    simp only [procLE, decide_eq_true_eq] at *
    exact le_trans hbc hab
  have htotal : ∀ a b : ProcessRecord, (procLE a b || procLE b a) = true := by
    intro a b
    simp only [procLE, Bool.or_eq_true, decide_eq_true_eq]
    exact le_total (keyd b) (keyd a)
  have hg : (get_process_list st false now table).1 =
      (freshRecords table).mergeSort procLE := by
    simp [get_process_list]
  rw [hg]
  refine ⟨?_, List.mergeSort_perm _ _, ?_⟩
  · exact (List.sorted_mergeSort htrans htotal (freshRecords table)).imp
      fun h => of_decide_eq_true h
  · intro q
    set p : ProcessRecord → Bool := fun r => decide (keyd r = q) with hp
    have hmemp : ∀ a ∈ (freshRecords table).filter p, p a = true :=
      fun a ha => List.of_mem_filter ha
    have hpair : ((freshRecords table).filter p).Pairwise
        fun a b => procLE a b = true := by
      apply List.pairwise_of_forall_mem_list
      intro a ha b hb
      have ha' : keyd a = q := of_decide_eq_true (hmemp a ha)
      have hb' : keyd b = q := of_decide_eq_true (hmemp b hb)
      simp [procLE, ha', hb']
    have hsub : List.Sublist ((freshRecords table).filter p)
        ((freshRecords table).mergeSort procLE) :=
      List.sublist_mergeSort htrans htotal hpair (List.filter_sublist _)
    have hsub2 : List.Sublist ((freshRecords table).filter p)
        (((freshRecords table).mergeSort procLE).filter p) := by
      have := hsub.filter p
      rwa [List.filter_eq_self.mpr hmemp] at this
    have hlen : (((freshRecords table).mergeSort procLE).filter p).length =
        ((freshRecords table).filter p).length :=
      ((List.mergeSort_perm (freshRecords table) procLE).filter p).length_eq
    exact (hsub2.eq_of_length hlen.symm).symm

end ByteDog
